import Mathlib

/-!
Verification of the SQL batch runner `src/sqlite/run_sql.py`.

The script has three parts that carry all the nontrivial logic:

* `collect_sql_files(paths)` — the Path Resolver: for each input path,
  a regular file whose `Path.suffix` equals `".sql"` is appended directly;
  a directory contributes `sorted(p for p in path.rglob("*.sql") if p.is_file())`;
  the aggregate is returned through a final `sorted(...)`.
* `execute_sql_files(db_path, sql_files)` — the Script Executor: early
  return on an empty list, otherwise `with sqlite3.connect(db_path) as conn:`
  and, per file, a progress print, a file read, and `conn.executescript(...)`.
* `main()` — env-file warning, `SQLITE_DB_PATH` lookup (exit 1 when falsy),
  `db_path.parent.mkdir(parents=True, exist_ok=True)`, then resolver and
  executor.  The virtual-env bootstrap, dependency installation and argument
  parsing are external interfaces out of scope of the specification.

The embedding below models POSIX path semantics (case-sensitive names,
`/` separator).  Filesystem state is a finite description `FS` of the
regular files and directories; paths are plain strings.  Effects (prints,
directory creation, scans, connection and transaction events) are traced
explicitly, and database state is tracked at script granularity: per the
`sqlite3` documentation, `Connection.executescript` issues an implicit
COMMIT of any pending transaction and performs no other implicit
transaction control, so each successfully executed script's effects are
committed when it completes; and the connection context manager commits on
normal exit, rolls back on an exception, and does **not** close the
connection.
-/

namespace RunSql

/-- A filesystem snapshot: the full paths of the regular files and of the
directories.  Paths are normalized POSIX strings without trailing slash. -/
structure FS where
  files : List String
  dirs : List String
  deriving Repr

/-- Embedding of `Path.is_file()` on the snapshot. -/
def FS.isFile (fs : FS) (p : String) : Bool := fs.files.contains p

/-- Embedding of `Path.is_dir()` on the snapshot. -/
def FS.isDir (fs : FS) (p : String) : Bool := fs.dirs.contains p

/-- Index of the last occurrence of `c`, as Python's `str.rfind` (restricted
to the found case); `none` when `c` does not occur. -/
def rfindIdx (c : Char) : List Char → Option Nat
  | [] => none
  | a :: rest =>
    match rfindIdx c rest with
    | some i => some (i + 1)
    | none => if a = c then some 0 else none

/-- Characters of the final path component: the accumulator is reset at
every `/` and holds the (reversed) chars seen since the last one. -/
def fileNameAux : List Char → List Char → List Char
  | [], acc => acc.reverse
  | a :: rest, acc =>
    if a = '/' then fileNameAux rest [] else fileNameAux rest (a :: acc)

/-- Embedding of `Path.name`: the final path component (after the last
`/`) of a normalized path. -/
def fileName (p : String) : String := String.mk (fileNameAux p.data [])

/-- Embedding of `Path.suffix`: CPython returns `name[i:]` for `i = name.rfind('.')`
when `0 < i < len(name) - 1`, and `""` otherwise (so a dotfile such as
`".sql"` has an empty suffix). -/
def pathSuffix (p : String) : String :=
  let name := fileName p
  match rfindIdx '.' name.data with
  | some i => if 0 < i ∧ i < name.data.length - 1 then String.mk (name.data.drop i) else ""
  | none => ""

/-- Matching of a name against the glob `*.sql` (the pattern used by
`rglob("*.sql")`): the translated regex `(?s:.*\.sql)\Z` accepts exactly the
names ending in `".sql"`, dotfiles included — pathlib's glob does not skip
hidden entries. -/
def fnmatchStarSql (name : String) : Bool := List.isSuffixOf ".sql".data name.data

/-- Whether `p` is a strict descendant of directory `dir` (any depth). -/
def isUnder (dir p : String) : Bool := List.isPrefixOf (dir ++ "/").data p.data

/-- Lexicographic code-point comparison of full path strings, stated on
the character lists (equivalent to `≤` on `String`, see `pathLe_iff_le`;
phrased this way so that concrete instances reduce in the kernel).  This
is NOT the order Python sorts `Path` values by — see `partsLe`. -/
def pathLe (a b : String) : Prop := a.data ≤ b.data

instance : DecidableRel pathLe := fun a b => inferInstanceAs (Decidable (a.data ≤ b.data))

/-- Splitting of a path into its components (runs of non-`/` characters,
empty runs dropped), each as a character list. -/
def splitComponentsAux : List Char → List Char → List (List Char)
  | [], acc => if acc.isEmpty then [] else [acc.reverse]
  | c :: rest, acc =>
    if c = '/' then
      if acc.isEmpty then splitComponentsAux rest []
      else acc.reverse :: splitComponentsAux rest []
    else splitComponentsAux rest (c :: acc)

/-- Embedding of `PurePosixPath._parts` for a normalized path: the tuple
of path components, with a leading `/` component for absolute paths. -/
def pathParts (p : String) : List (List Char) :=
  if p.data.head? = some '/' then ['/'] :: splitComponentsAux p.data []
  else splitComponentsAux p.data []

/-- The order Python `sorted` uses on `Path` values: `PurePath.__lt__`
compares the tuple of path components (`_parts_normcase`, the identity
normcase on POSIX) lexicographically, each component compared
code-point-wise — not the joined path string.  Parts-equal normalized
paths are the same path, so the full-string tie-break below never
differentiates inputs Python can represent; it only keeps the relation
antisymmetric on all of `String`. -/
def partsLe (a b : String) : Prop :=
  pathParts a < pathParts b ∨ (pathParts a = pathParts b ∧ a.data ≤ b.data)

instance : DecidableRel partsLe := fun a b =>
  inferInstanceAs (Decidable (pathParts a < pathParts b ∨
    (pathParts a = pathParts b ∧ a.data ≤ b.data)))

/-- Python `sorted` on `Path` values, i.e. a stable sort by the component
tuple order `partsLe`; any sort by that total order is extensionally the
same function on (normalized) paths. -/
def pySorted (l : List String) : List String := l.insertionSort partsLe

/-- Embedding of `sorted(p for p in dir.rglob("*.sql") if p.is_file())`: the regular
files strictly below `dir` whose final name matches the glob, sorted. -/
def rglobSql (fs : FS) (dir : String) : List String :=
  pySorted (fs.files.filter (fun p => isUnder dir p && fnmatchStarSql (fileName p)))

/-- Per-path contribution of the resolver loop body. -/
def contrib (fs : FS) (path : String) : List String :=
  if fs.isFile path && (pathSuffix path == ".sql") then [path]
  else if fs.isDir path then rglobSql fs path
  else []

/-- Embedding of `collect_sql_files`: the loop appends each path's contribution in
order and the result is returned through a final `sorted(...)`. -/
def collect_sql_files (fs : FS) (paths : List String) : List String :=
  pySorted (paths.flatMap (contrib fs))

/-- Observable effects of a run, in order of occurrence. -/
inductive Event where
  | print (msg : String)
  | scan (path : String)
  | mkdirParents (dir : String)
  | connect (db : String)
  | readFile (p : String)
  | execScript (p : String)
  | commitTxn
  | rollbackTxn
  | close
  deriving DecidableEq, Repr

/-- Outcome of the executor's body: normal completion, or a raised
exception carrying the failing script's description. -/
inductive ScriptOutcome where
  | ok
  | err (msg : String)
  deriving DecidableEq, Repr

/-- The failure oracle: `fails p = true` means reading or executing
script `p` raises an exception (malformed SQL, constraint violation,
I/O error). -/
def Oracle := String → Bool

/-- The `for sql_file in sql_files` loop inside the `with` block: per
script a progress print, a file read, then `conn.executescript` — which
commits the script's effects as it runs (no pending transaction is left
behind).  `db` is the list of scripts whose effects are committed. -/
def runScripts (fails : Oracle) (db : List String) :
    List String → List Event × List String × ScriptOutcome
  | [] => ([], db, .ok)
  | p :: rest =>
    let pre : List Event := [.print ("Executing: " ++ p), .readFile p]
    if fails p then
      (pre, db, .err p)
    else
      let r := runScripts fails (db ++ [p]) rest
      (pre ++ .execScript p :: r.1, r.2.1, r.2.2)

/-- Events of one successfully executed script. -/
def scriptEvents (p : String) : List Event :=
  [.print ("Executing: " ++ p), .readFile p, .execScript p]

/-- Embedding of `execute_sql_files`: early informational return on an empty list;
otherwise one connection for the whole run, the script loop, and the
context-manager exit — commit on success, rollback on an exception, the
connection itself left open in either case (per the `sqlite3`
documentation the connection context manager does not close the
connection). -/
def execute_sql_files (fails : Oracle) (db₀ : List String) (dbPath : String)
    (sqlFiles : List String) : List Event × List String × ScriptOutcome :=
  if sqlFiles.isEmpty then
    ([.print "No .sql files found to execute."], db₀, .ok)
  else
    let head : List Event :=
      [.print ("Connecting to SQLite DB: " ++ dbPath), .connect dbPath]
    let r := runScripts fails db₀ sqlFiles
    match r.2.2 with
    | .ok => (head ++ r.1 ++ [.commitTxn, .print "Execution complete."], r.2.1, .ok)
    | .err m => (head ++ r.1 ++ [.rollbackTxn], r.2.1, .err m)

/-- Process exit behaviour: normal return (exit 0), explicit `exit(1)`,
or an unhandled exception (the interpreter's fatal-error path, exit 1). -/
inductive ExitStatus where
  | success
  | exitCode (n : Nat)
  | fatal (msg : String)
  deriving DecidableEq, Repr

/-- The numeric process exit code of each outcome; an unhandled Python
exception terminates the process with code 1. -/
def exitCodeOf : ExitStatus → Nat
  | .success => 0
  | .exitCode n => n
  | .fatal _ => 1

/-- Embedding of `Path(db_path).parent` for a normalized relative or
absolute path: the path with its final component (and the `/` before it)
removed; `"."` when there is no `/`, `"/"` for a root-level entry. -/
def parentDir (p : String) : String :=
  let name := fileName p
  if name.data.length = p.data.length then "."
  else
    let trunk := p.data.take (p.data.length - name.data.length - 1)
    if trunk = [] then "/" else String.mk trunk

/-- Embedding of `main()` from the `.env` handling onward (the venv bootstrap,
dependency installation and argparse syntax are out-of-scope external
interfaces).  `env` is the process environment after `load_dotenv`;
`envFileExists` selects the missing-env-file warning; a `scan` event is
recorded per input path when the resolver walks the filesystem. -/
def main (envFileExists : Bool) (env : String → Option String) (fs : FS)
    (fails : Oracle) (db₀ : List String) (argPaths : List String) :
    List Event × ExitStatus :=
  let warnEvs : List Event :=
    if envFileExists then []
    else [.print "Warning: .env file not found, proceeding with default env"]
  match env "SQLITE_DB_PATH" with
  | none => (warnEvs ++ [.print "Error: SQLITE_DB_PATH not set in .env"], .exitCode 1)
  | some s =>
    if s = "" then
      (warnEvs ++ [.print "Error: SQLITE_DB_PATH not set in .env"], .exitCode 1)
    else
      let evs₁ := warnEvs ++ [Event.mkdirParents (parentDir s)]
      let scanEvs := argPaths.map Event.scan
      let sqlFiles := collect_sql_files fs argPaths
      let r := execute_sql_files fails db₀ s sqlFiles
      match r.2.2 with
      | .ok => (evs₁ ++ scanEvs ++ r.1, .success)
      | .err m => (evs₁ ++ scanEvs ++ r.1, .fatal m)

/-! ### Basic facts about the resolver -/

lemma pathLe_iff_le {a b : String} : pathLe a b ↔ a ≤ b :=
  String.le_iff_toList_le.symm

instance : IsTotal String partsLe :=
  ⟨fun a b => by
    rcases lt_trichotomy (pathParts a) (pathParts b) with h | h | h
    · exact Or.inl (Or.inl h)
    · rcases le_total a.data b.data with hd | hd
      · exact Or.inl (Or.inr ⟨h, hd⟩)
      · exact Or.inr (Or.inr ⟨h.symm, hd⟩)
    · exact Or.inr (Or.inl h)⟩

instance : IsTrans String partsLe :=
  ⟨fun a b c hab hbc => by
    rcases hab with hab | ⟨hab, hab'⟩ <;> rcases hbc with hbc | ⟨hbc, hbc'⟩
    · exact Or.inl (lt_trans hab hbc)
    · exact Or.inl (lt_of_lt_of_le hab (le_of_eq hbc))
    · exact Or.inl (lt_of_le_of_lt (le_of_eq hab) hbc)
    · exact Or.inr ⟨hab.trans hbc, le_trans hab' hbc'⟩⟩

instance : IsAntisymm String partsLe :=
  ⟨fun a b hab hba => by
    rcases hab with hab | ⟨hab, hab'⟩ <;> rcases hba with hba | ⟨hba, hba'⟩
    · exact absurd (lt_trans hab hba) (lt_irrefl _)
    · rw [hba] at hab; exact absurd hab (lt_irrefl _)
    · rw [hab] at hba; exact absurd hba (lt_irrefl _)
    · exact String.ext (le_antisymm hab' hba')⟩

lemma mem_pySorted {a : String} {l : List String} : a ∈ pySorted l ↔ a ∈ l :=
  (List.perm_insertionSort _ l).mem_iff

lemma mem_collect_sql_files {fs : FS} {ps : List String} {p : String} :
    p ∈ collect_sql_files fs ps ↔ ∃ q ∈ ps, p ∈ contrib fs q := by
  rw [collect_sql_files, mem_pySorted, List.mem_flatMap]

end RunSql

namespace RunSql

/-- C1 counterexample.  Python sorts `Path` values by component tuple,
not full path string: for the directory arguments `a` and `a.b`, the
resolver returns `["a/x.sql", "a.b/c.sql"]` (since `["a", "x.sql"]`
precedes `["a.b", "c.sql"]` component-wise), yet as full strings
`"a/x.sql" > "a.b/c.sql"` because `/` (0x2F) sorts after `.` (0x2E) —
the adjacent pair violates string order. -/
theorem collect_sql_files_string_order_counterexample :
    ¬ List.Chain' (fun a b : String => a ≤ b)
      (collect_sql_files ⟨["a/x.sql", "a.b/c.sql"], ["a", "a.b"]⟩ ["a", "a.b"]) := by
  have hcol : collect_sql_files ⟨["a/x.sql", "a.b/c.sql"], ["a", "a.b"]⟩ ["a", "a.b"] =
      ["a/x.sql", "a.b/c.sql"] := by decide
  rw [hcol]
  intro h
  have h1 : ("a/x.sql" : String) ≤ "a.b/c.sql" := (List.chain'_cons.mp h).1
  exact absurd (pathLe_iff_le.mpr h1) (by decide)

/-- C1 amended.  For every set of Input Paths, the Resolved Script List
is sorted ascending by pathlib's `Path` ordering — lexicographically by
the tuple of path components, each component compared code-point-wise —
rather than by full path string: it is `Sorted` for `partsLe`, so every
adjacent pair `(a, b)` satisfies `partsLe a b` (the `Chain'` conjunct). -/
theorem collect_sql_files_sorted_by_parts (fs : FS) (paths : List String) :
    (collect_sql_files fs paths).Sorted partsLe ∧
      List.Chain' partsLe (collect_sql_files fs paths) := by
  have h : (collect_sql_files fs paths).Sorted partsLe :=
    List.sorted_insertionSort partsLe _
  exact ⟨h, List.Pairwise.chain' h⟩

/-- C7.  The Resolved Script List is invariant under any permutation of the
input arguments: the resolver returns the same list for any two orderings
of the same arguments. -/
theorem collect_sql_files_perm_invariant (fs : FS) (ps ps' : List String)
    (h : ps.Perm ps') : collect_sql_files fs ps = collect_sql_files fs ps' := by
  refine List.eq_of_perm_of_sorted ?_
    (List.sorted_insertionSort _ _) (List.sorted_insertionSort _ _)
  exact (List.perm_insertionSort _ _).trans
    ((h.flatMap_right _).trans (List.perm_insertionSort _ _).symm)

/-- Witness for C7 at a concrete filesystem and argument pair. -/
theorem collect_sql_files_perm_invariant_witness :
    collect_sql_files ⟨["a.sql", "b.sql"], []⟩ ["a.sql", "b.sql"] =
      collect_sql_files ⟨["a.sql", "b.sql"], []⟩ ["b.sql", "a.sql"] :=
  collect_sql_files_perm_invariant _ _ _ (by decide)

/-- C4 counterexample.  Supplying the same covering path twice does not
yield the same Resolved Script List as supplying it once: the duplicate
direct file argument is appended twice and the final sort keeps both
entries, so the list is `["a.sql", "a.sql"]` rather than `["a.sql"]`. -/
theorem collect_sql_files_dup_counterexample :
    collect_sql_files ⟨["a.sql"], []⟩ ["a.sql", "a.sql"] ≠
      collect_sql_files ⟨["a.sql"], []⟩ ["a.sql"] := by decide

/-- C4 amended.  The Resolved Script List is not independent of the count
of Input Paths (duplicated covering paths contribute duplicate entries),
but the underlying set of resolved Script Files is: deduplicating the
input paths leaves the set of list elements unchanged. -/
theorem collect_sql_files_dedup_same_set (fs : FS) (ps : List String) :
    (collect_sql_files fs ps).toFinset = (collect_sql_files fs ps.dedup).toFinset := by
  ext p
  simp only [List.mem_toFinset, mem_collect_sql_files, List.mem_dedup]

/-! ### Facts about the executor -/

lemma close_not_mem_runScripts (fails : Oracle) (l : List String) :
    ∀ db, Event.close ∉ (runScripts fails db l).1 := by
  induction l with
  | nil => intro db; simp [runScripts]
  | cons p rest ih =>
    intro db
    by_cases h : fails p <;> simp [runScripts, h, ih]

lemma runScripts_ok (fails : Oracle) (l : List String)
    (h : ∀ p ∈ l, fails p = false) :
    ∀ db, runScripts fails db l = (l.flatMap scriptEvents, db ++ l, .ok) := by
  induction l with
  | nil => intro db; simp [runScripts]
  | cons p rest ih =>
    intro db
    have hp : fails p = false := h p (List.mem_cons_self p rest)
    have ih' := ih (fun q hq => h q (List.mem_cons_of_mem p hq)) (db ++ [p])
    simp [runScripts, hp, ih', scriptEvents]

lemma runScripts_fail (fails : Oracle) (x : String) (hx : fails x = true)
    (post : List String) :
    ∀ pre, (∀ p ∈ pre, fails p = false) → ∀ db,
      runScripts fails db (pre ++ x :: post) =
        (pre.flatMap scriptEvents ++
           [.print ("Executing: " ++ x), .readFile x], db ++ pre, .err x) := by
  intro pre
  induction pre with
  | nil => intro _ db; simp [runScripts, hx]
  | cons a pre ih =>
    intro hpre db
    have ha : fails a = false := hpre a (List.mem_cons_self a pre)
    have ih' := ih (fun q hq => hpre q (List.mem_cons_of_mem a hq)) (db ++ [a])
    simp [runScripts, ha, ih', scriptEvents]

/-- C2 counterexample.  A concrete run with one script: a connection to
the database is opened, and when the Executor returns no `close` of the
connection has occurred — the `with sqlite3.connect(...)` block ends the
transaction but does not release the connection. -/
theorem executor_no_close_counterexample :
    Event.connect "app.db" ∈
        (execute_sql_files (fun _ => false) [] "app.db" ["a.sql"]).1 ∧
      Event.close ∉ (execute_sql_files (fun _ => false) [] "app.db" ["a.sql"]).1 := by
  decide

/-- C2 amended.  On every exit path of the Executor the connection is
never closed by the Executor (release happens only at process
termination); what the `with` block guarantees instead is transaction
disposition: a connection is opened exactly when the list is nonempty,
the pending transaction is committed on successful completion and rolled
back when a script fails. -/
theorem executor_exit_paths (fails : Oracle) (db₀ : List String)
    (dbPath : String) (files : List String) :
    Event.close ∉ (execute_sql_files fails db₀ dbPath files).1 ∧
      (Event.connect dbPath ∈ (execute_sql_files fails db₀ dbPath files).1 ↔
        files ≠ []) ∧
      ((execute_sql_files fails db₀ dbPath files).2.2 = .ok → files ≠ [] →
        Event.commitTxn ∈ (execute_sql_files fails db₀ dbPath files).1) ∧
      (∀ m, (execute_sql_files fails db₀ dbPath files).2.2 = .err m →
        Event.rollbackTxn ∈ (execute_sql_files fails db₀ dbPath files).1) := by
  cases files with
  | nil =>
    refine ⟨by simp [execute_sql_files], by simp [execute_sql_files], ?_, ?_⟩
    · intro _ hne; exact absurd rfl hne
    · intro m hm; simp [execute_sql_files] at hm
  | cons a l =>
    have hclose := close_not_mem_runScripts fails (a :: l) db₀
    cases hout : (runScripts fails db₀ (a :: l)).2.2 with
    | ok =>
      refine ⟨?_, ?_, ?_, ?_⟩ <;>
        simp [execute_sql_files, hout, hclose]
    | err m =>
      refine ⟨?_, ?_, ?_, ?_⟩ <;>
        simp [execute_sql_files, hout, hclose]

/-- Witness for C2's amended statement at a concrete successful run. -/
theorem executor_exit_paths_witness :
    Event.close ∉ (execute_sql_files (fun _ => false) [] "app.db" ["a.sql"]).1 ∧
      Event.commitTxn ∈ (execute_sql_files (fun _ => false) [] "app.db" ["a.sql"]).1 :=
  ⟨(executor_exit_paths (fun _ => false) [] "app.db" ["a.sql"]).1,
    (executor_exit_paths (fun _ => false) [] "app.db" ["a.sql"]).2.2.1
      (by decide) (by decide)⟩

/-! ### Facts about the entry procedure -/

lemma main_trace_of_env {env : String → Option String} {s : String}
    (envF : Bool) (fs : FS) (fails : Oracle) (db₀ : List String)
    (args : List String) (henv : env "SQLITE_DB_PATH" = some s) (hs : s ≠ "") :
    (main envF env fs fails db₀ args).1 =
      (if envF then ([] : List Event)
        else [.print "Warning: .env file not found, proceeding with default env"]) ++
        Event.mkdirParents (parentDir s) ::
          (args.map Event.scan ++
            (execute_sql_files fails db₀ s (collect_sql_files fs args)).1) := by
  cases hout : (execute_sql_files fails db₀ s (collect_sql_files fs args)).2.2 <;>
    simp [main, henv, hs, hout]

lemma main_status_of_env {env : String → Option String} {s : String}
    (envF : Bool) (fs : FS) (fails : Oracle) (db₀ : List String)
    (args : List String) (henv : env "SQLITE_DB_PATH" = some s) (hs : s ≠ "") :
    (main envF env fs fails db₀ args).2 =
      match (execute_sql_files fails db₀ s (collect_sql_files fs args)).2.2 with
      | .ok => ExitStatus.success
      | .err m => ExitStatus.fatal m := by
  cases hout : (execute_sql_files fails db₀ s (collect_sql_files fs args)).2.2 <;>
    simp [main, henv, hs, hout]

/-- C5.  When `SQLITE_DB_PATH` is absent from the environment, the
process prints the error naming the variable and exits with code 1,
having scanned no input path and opened no connection. -/
theorem missing_env_config_error (envF : Bool) (env : String → Option String)
    (fs : FS) (fails : Oracle) (db₀ : List String) (args : List String)
    (henv : env "SQLITE_DB_PATH" = none) :
    (main envF env fs fails db₀ args).2 = .exitCode 1 ∧
      exitCodeOf (main envF env fs fails db₀ args).2 = 1 ∧
      Event.print "Error: SQLITE_DB_PATH not set in .env" ∈
        (main envF env fs fails db₀ args).1 ∧
      (∀ p, Event.scan p ∉ (main envF env fs fails db₀ args).1) ∧
      (∀ d, Event.connect d ∉ (main envF env fs fails db₀ args).1) := by
  refine ⟨?_, ?_, ?_, ?_, ?_⟩ <;> cases envF <;> simp [main, henv, exitCodeOf]

/-- Witness for C5 at a concrete environment with no `SQLITE_DB_PATH`. -/
theorem missing_env_config_error_witness :
    (main true (fun _ => none) ⟨[], []⟩ (fun _ => false) [] ["x"]).2 = .exitCode 1 ∧
      Event.scan "x" ∉ (main true (fun _ => none) ⟨[], []⟩ (fun _ => false) [] ["x"]).1 :=
  ⟨(missing_env_config_error true (fun _ => none) ⟨[], []⟩ (fun _ => false) [] ["x"] rfl).1,
    (missing_env_config_error true (fun _ => none) ⟨[], []⟩ (fun _ => false) [] ["x"] rfl).2.2.2.1 "x"⟩

/-- C6.  With the database path configured and an empty Resolved Script
List, the Executor returns the informational message without opening a
connection, and the process exits successfully. -/
theorem empty_list_success (envF : Bool) (env : String → Option String)
    (fs : FS) (fails : Oracle) (db₀ : List String) (args : List String)
    (s : String) (henv : env "SQLITE_DB_PATH" = some s) (hs : s ≠ "")
    (hcol : collect_sql_files fs args = []) :
    execute_sql_files fails db₀ s [] =
        ([.print "No .sql files found to execute."], db₀, .ok) ∧
      (main envF env fs fails db₀ args).2 = .success ∧
      exitCodeOf (main envF env fs fails db₀ args).2 = 0 ∧
      (∀ d, Event.connect d ∉ (main envF env fs fails db₀ args).1) ∧
      Event.print "No .sql files found to execute." ∈
        (main envF env fs fails db₀ args).1 := by
  have hexec : execute_sql_files fails db₀ s [] =
      ([.print "No .sql files found to execute."], db₀, .ok) := by
    simp [execute_sql_files]
  have htr := main_trace_of_env envF fs fails db₀ args henv hs
  have hst := main_status_of_env envF fs fails db₀ args henv hs
  rw [hcol, hexec] at htr hst
  refine ⟨hexec, by rw [hst], by rw [hst]; rfl, ?_, ?_⟩
  · intro d
    rw [htr]
    cases envF <;> simp
  · rw [htr]
    cases envF <;> simp

/-- Witness for C6 at a concrete empty filesystem. -/
theorem empty_list_success_witness :
    (main true (fun v => if v = "SQLITE_DB_PATH" then some "data/app.db" else none)
        ⟨[], []⟩ (fun _ => false) [] ["x"]).2 = .success ∧
      Event.connect "data/app.db" ∉
        (main true (fun v => if v = "SQLITE_DB_PATH" then some "data/app.db" else none)
          ⟨[], []⟩ (fun _ => false) [] ["x"]).1 :=
  ⟨(empty_list_success true _ ⟨[], []⟩ (fun _ => false) [] ["x"] "data/app.db"
      (by decide) (by decide) (by decide)).2.1,
    (empty_list_success true _ ⟨[], []⟩ (fun _ => false) [] ["x"] "data/app.db"
      (by decide) (by decide) (by decide)).2.2.2.1 "data/app.db"⟩

/-- C9.  Whenever the database path is configured, `main` creates the
parent directory of the configured path (with intermediate directories)
before resolving or connecting — even on runs whose Resolved Script List
is empty and which therefore never open a connection. -/
theorem mkdir_parent_always (envF : Bool) (env : String → Option String)
    (fs : FS) (fails : Oracle) (db₀ : List String) (args : List String)
    (s : String) (henv : env "SQLITE_DB_PATH" = some s) (hs : s ≠ "") :
    Event.mkdirParents (parentDir s) ∈ (main envF env fs fails db₀ args).1 ∧
      (collect_sql_files fs args = [] →
        (∀ d, Event.connect d ∉ (main envF env fs fails db₀ args).1) ∧
          Event.mkdirParents (parentDir s) ∈ (main envF env fs fails db₀ args).1) := by
  have htr := main_trace_of_env envF fs fails db₀ args henv hs
  constructor
  · rw [htr]; cases envF <;> simp
  · intro hcol
    refine ⟨?_, by rw [htr]; cases envF <;> simp⟩
    intro d
    rw [htr, hcol]
    cases envF <;> simp [execute_sql_files]

/-- Witness for C9: the empty-list run still creates the parent directory. -/
theorem mkdir_parent_always_witness :
    Event.mkdirParents "data" ∈
      (main true (fun v => if v = "SQLITE_DB_PATH" then some "data/app.db" else none)
        ⟨[], []⟩ (fun _ => false) [] ["x"]).1 :=
  (mkdir_parent_always true _ ⟨[], []⟩ (fun _ => false) [] ["x"] "data/app.db"
    (by decide) (by decide)).1

lemma string_append_right_inj {s q p : String} (h : s ++ q = s ++ p) : q = p := by
  have hd := congrArg String.data h
  rw [String.data_append, String.data_append] at hd
  exact String.ext (List.append_cancel_left hd)

lemma append_ne_append_of_head_ne {a b : String} (q d : String)
    (ha : a.data.head? ≠ b.data.head?) (hna : a.data ≠ []) (hnb : b.data ≠ []) :
    a ++ q ≠ b ++ d := by
  intro heq
  apply ha
  have hd := congrArg String.data heq
  rw [String.data_append, String.data_append] at hd
  obtain ⟨ca, ta, hta⟩ := List.exists_cons_of_ne_nil hna
  obtain ⟨cb, tb, htb⟩ := List.exists_cons_of_ne_nil hnb
  rw [hta, htb] at hd
  simp only [List.cons_append, List.cons.injEq] at hd
  rw [hta, htb]
  simp [hd.1]

/-- C3.  When the scripts before `x` all succeed and `x` fails, the run
aborts at `x`: the outcome is the propagated error, the committed
database effects are exactly those of the scripts before `x`, the trace
ends at `x`'s read (followed only by the transaction rollback), no later
script is reported, read or executed, and at the process level the error
surfaces as a fatal, non-zero exit. -/
theorem failing_script_aborts (fails : Oracle) (db₀ : List String)
    (dbPath x : String) (pre post : List String)
    (hpre : ∀ p ∈ pre, fails p = false) (hx : fails x = true) :
    (execute_sql_files fails db₀ dbPath (pre ++ x :: post)).2.2 = .err x ∧
      (execute_sql_files fails db₀ dbPath (pre ++ x :: post)).2.1 = db₀ ++ pre ∧
      (execute_sql_files fails db₀ dbPath (pre ++ x :: post)).1 =
        .print ("Connecting to SQLite DB: " ++ dbPath) :: .connect dbPath ::
          (pre.flatMap scriptEvents ++
            [.print ("Executing: " ++ x), .readFile x, .rollbackTxn]) ∧
      (∀ q ∈ post, q ∉ pre → q ≠ x →
        Event.readFile q ∉ (execute_sql_files fails db₀ dbPath (pre ++ x :: post)).1 ∧
          Event.execScript q ∉ (execute_sql_files fails db₀ dbPath (pre ++ x :: post)).1 ∧
          Event.print ("Executing: " ++ q) ∉
            (execute_sql_files fails db₀ dbPath (pre ++ x :: post)).1) ∧
      (∀ (envF : Bool) (env : String → Option String) (fs : FS)
          (args : List String) (s : String),
        env "SQLITE_DB_PATH" = some s → s ≠ "" →
        collect_sql_files fs args = pre ++ x :: post →
        (main envF env fs fails db₀ args).2 = .fatal x ∧
          exitCodeOf (main envF env fs fails db₀ args).2 ≠ 0) := by
  have hrun := runScripts_fail fails x hx post pre hpre db₀
  have hexec : ∀ dp, execute_sql_files fails db₀ dp (pre ++ x :: post) =
      (.print ("Connecting to SQLite DB: " ++ dp) :: .connect dp ::
        (pre.flatMap scriptEvents ++
          [.print ("Executing: " ++ x), .readFile x, .rollbackTxn]),
        db₀ ++ pre, .err x) := by
    intro dp
    simp [execute_sql_files, hrun]
  refine ⟨by rw [hexec], by rw [hexec], by rw [hexec], ?_, ?_⟩
  · intro q _ hqpre hqx
    have h1 : ("Executing: " ++ q) ≠ ("Connecting to SQLite DB: " ++ dbPath) :=
      append_ne_append_of_head_ne q dbPath (by decide) (by decide) (by decide)
    have h2 : ∀ a : String, ("Executing: " ++ q) = ("Executing: " ++ a) ↔ q = a :=
      fun a => ⟨fun h => string_append_right_inj h, fun h => by rw [h]⟩
    rw [hexec]
    refine ⟨?_, ?_, ?_⟩ <;>
      simp [scriptEvents, List.mem_flatMap, hqpre, hqx, h1, h2]
  · intro envF env fs args s henv hs hcol
    have hst := main_status_of_env envF fs fails db₀ args henv hs
    rw [hcol, hexec s] at hst
    rw [hst]
    exact ⟨rfl, by simp [exitCodeOf]⟩

/-- Witness for C3: three scripts, the second fails; only the first is
applied, the third is never read, and the process exits fatally. -/
theorem failing_script_aborts_witness :
    (execute_sql_files (fun p => p == "b.sql") [] "data/app.db"
        (["a.sql"] ++ "b.sql" :: ["c.sql"])).2.1 = [] ++ ["a.sql"] ∧
      Event.readFile "c.sql" ∉
        (execute_sql_files (fun p => p == "b.sql") [] "data/app.db"
          (["a.sql"] ++ "b.sql" :: ["c.sql"])).1 ∧
      (main true (fun v => if v = "SQLITE_DB_PATH" then some "data/app.db" else none)
          ⟨["a.sql", "b.sql", "c.sql"], []⟩ (fun p => p == "b.sql") []
          ["a.sql", "b.sql", "c.sql"]).2 = .fatal "b.sql" := by
  have T := failing_script_aborts (fun p => p == "b.sql") [] "data/app.db" "b.sql"
    ["a.sql"] ["c.sql"] (by decide) (by decide)
  exact ⟨T.2.1, (T.2.2.2.1 "c.sql" (by decide) (by decide) (by decide)).1,
    (T.2.2.2.2 true _ ⟨["a.sql", "b.sql", "c.sql"], []⟩ ["a.sql", "b.sql", "c.sql"]
      "data/app.db" (by decide) (by decide) (by decide)).1⟩

/-! ### Extension recognition -/

lemma pathSuffix_def (p : String) : pathSuffix p =
    match rfindIdx '.' (fileName p).data with
    | some i =>
      if 0 < i ∧ i < (fileName p).data.length - 1
        then String.mk ((fileName p).data.drop i) else ""
    | none => "" := rfl

lemma rfindIdx_append (c : Char) (xs ys : List Char) :
    rfindIdx c (xs ++ ys) =
      match rfindIdx c ys with
      | some i => some (xs.length + i)
      | none => rfindIdx c xs := by
  induction xs with
  | nil => cases h : rfindIdx c ys <;> simp [rfindIdx, h]
  | cons a xs ih =>
    cases h : rfindIdx c ys with
    | some i =>
      rw [h] at ih
      simp [rfindIdx, ih, h]
      omega
    | none =>
      rw [h] at ih
      simp [rfindIdx, ih, h]

lemma rfindIdx_dot_sql : rfindIdx '.' ".sql".data = some 0 := by decide

lemma pathSuffix_eq_of_rfind_some {p : String} {i : Nat}
    (h : rfindIdx '.' (fileName p).data = some i) :
    pathSuffix p =
      if 0 < i ∧ i < (fileName p).data.length - 1
        then String.mk ((fileName p).data.drop i) else "" := by
  rw [pathSuffix_def, h]

lemma pathSuffix_eq_of_rfind_none {p : String}
    (h : rfindIdx '.' (fileName p).data = none) : pathSuffix p = "" := by
  rw [pathSuffix_def, h]

/-- Key characterization: a name's `Path.suffix` equals `".sql"` exactly
when the name matches the glob `*.sql` and is not the bare dotfile name
`".sql"` itself. -/
lemma pathSuffix_eq_sql_iff (p : String) :
    pathSuffix p = ".sql" ↔
      (fnmatchStarSql (fileName p) = true ∧ fileName p ≠ ".sql") := by
  constructor
  · intro h
    cases hr : rfindIdx '.' (fileName p).data with
    | none =>
      rw [pathSuffix_eq_of_rfind_none hr] at h
      exact absurd h (by decide)
    | some i =>
      rw [pathSuffix_eq_of_rfind_some hr] at h
      by_cases hc : 0 < i ∧ i < (fileName p).data.length - 1
      · rw [if_pos hc] at h
        have hd : (fileName p).data.drop i = ".sql".data := congrArg String.data h
        refine ⟨?_, ?_⟩
        · unfold fnmatchStarSql
          rw [List.isSuffixOf_iff_suffix, ← hd]
          exact List.drop_suffix i _
        · intro heq
          have hlen := congrArg List.length hd
          rw [List.length_drop, heq] at hlen
          have h4 : ".sql".data.length = 4 := by decide
          rw [h4] at hlen
          omega
      · rw [if_neg hc] at h; exact absurd h (by decide)
  · rintro ⟨hm, hne⟩
    unfold fnmatchStarSql at hm
    rw [List.isSuffixOf_iff_suffix] at hm
    obtain ⟨t, ht⟩ := hm
    have ht_ne : t ≠ [] := by
      intro h0
      rw [h0, List.nil_append] at ht
      exact hne (String.ext ht.symm)
    have hlpos : 0 < t.length := List.length_pos.mpr ht_ne
    have h4 : ".sql".data.length = 4 := by decide
    have hsome : rfindIdx '.' (fileName p).data = some t.length := by
      rw [← ht, rfindIdx_append, rfindIdx_dot_sql]
      simp
    rw [pathSuffix_eq_of_rfind_some hsome, if_pos ?_]
    · rw [← ht, List.drop_left]
    · refine ⟨hlpos, ?_⟩
      rw [← ht, List.length_append, h4]
      omega

lemma mem_contrib_fnmatch {fs : FS} {q p : String} (h : p ∈ contrib fs q) :
    fnmatchStarSql (fileName p) = true := by
  unfold contrib at h
  by_cases h1 : (fs.isFile q && (pathSuffix q == ".sql")) = true
  · rw [if_pos h1] at h
    have hq : pathSuffix q = ".sql" :=
      beq_iff_eq.mp (Bool.and_elim_right h1)
    rw [List.mem_singleton.mp h]
    exact ((pathSuffix_eq_sql_iff q).mp hq).1
  · rw [if_neg h1] at h
    by_cases h2 : fs.isDir q = true
    · rw [if_pos h2] at h
      unfold rglobSql at h
      rw [mem_pySorted, List.mem_filter] at h
      exact (Bool.and_elim_right h.2)
    · rw [if_neg h2] at h
      exact absurd h (List.not_mem_nil p)

lemma mem_collect_imp_fnmatch {fs : FS} {ps : List String} {p : String}
    (h : p ∈ collect_sql_files fs ps) : fnmatchStarSql (fileName p) = true := by
  obtain ⟨q, _, hc⟩ := mem_collect_sql_files.mp h
  exact mem_contrib_fnmatch hc

/-- C8 counterexample.  A file named exactly `.sql` under a directory
argument is matched by `rglob("*.sql")` (pathlib glob does not skip
dotfiles) and resolved, yet its `Path.suffix` is empty, not `".sql"` —
so a file is included whose extension is not the recognized one. -/
theorem extension_exactness_counterexample :
    "d/.sql" ∈ collect_sql_files ⟨["d/.sql"], ["d"]⟩ ["d"] ∧
      pathSuffix "d/.sql" ≠ ".sql" := by decide

/-- C8 amended.  Every resolved file either has `Path.suffix` exactly
`".sql"` or is named exactly `.sql` (the sole glob/suffix disagreement);
a `.sql`-suffixed file nested at any depth under a directory Input Path
is always included, and a `.sql`-suffixed file passed directly is always
included. -/
theorem resolver_extension_amended (fs : FS) (ps : List String) (p : String) :
    (p ∈ collect_sql_files fs ps →
      pathSuffix p = ".sql" ∨ fileName p = ".sql") ∧
      (∀ d, d ∈ ps → fs.isFile d = false → fs.isDir d = true → p ∈ fs.files →
        isUnder d p = true → pathSuffix p = ".sql" →
        p ∈ collect_sql_files fs ps) ∧
      (p ∈ ps → fs.isFile p = true → pathSuffix p = ".sql" →
        p ∈ collect_sql_files fs ps) := by
  refine ⟨?_, ?_, ?_⟩
  · intro h
    by_cases hne : fileName p = ".sql"
    · exact Or.inr hne
    · exact Or.inl
        ((pathSuffix_eq_sql_iff p).mpr ⟨mem_collect_imp_fnmatch h, hne⟩)
  · intro d hd hfile hdir hp hu hsuf
    refine mem_collect_sql_files.mpr ⟨d, hd, ?_⟩
    unfold contrib
    rw [hfile]
    simp only [Bool.false_and, Bool.false_eq_true, if_false, hdir, if_true]
    unfold rglobSql
    rw [mem_pySorted, List.mem_filter]
    exact ⟨hp, by rw [hu, ((pathSuffix_eq_sql_iff p).mp hsuf).1]; rfl⟩
  · intro hp hfile hsuf
    refine mem_collect_sql_files.mpr ⟨p, hp, ?_⟩
    unfold contrib
    rw [hfile, hsuf]
    simp

/-- Witness for C8's amended statement: a deeply nested `.sql` file under
a directory argument is resolved. -/
theorem resolver_extension_amended_witness :
    "d/sub/a.sql" ∈ collect_sql_files ⟨["d/sub/a.sql"], ["d"]⟩ ["d"] :=
  (resolver_extension_amended ⟨["d/sub/a.sql"], ["d"]⟩ ["d"] "d/sub/a.sql").2.1 "d"
    (by decide) (by decide) (by decide) (by decide) (by decide) (by decide)

lemma suffix_eq_of_length {a b l : List Char} (ha : a <:+ l) (hb : b <:+ l)
    (hlen : a.length = b.length) : a = b := by
  rw [List.suffix_iff_eq_drop] at ha hb
  rw [ha, hb, hlen]

/-- C10.  Extension recognition is case-sensitive: a file whose name ends
in `".SQL"` or `".Sql"` is never resolved, whether passed directly (the
`Path.suffix` comparison is exact) or found under a directory (the glob
`*.sql` is matched case-sensitively on POSIX). -/
theorem case_variant_never_included (fs : FS) (ps : List String) (p : String)
    (h : ".SQL".data <:+ (fileName p).data ∨ ".Sql".data <:+ (fileName p).data) :
    p ∉ collect_sql_files fs ps := by
  intro hmem
  have hm := mem_collect_imp_fnmatch hmem
  unfold fnmatchStarSql at hm
  rw [List.isSuffixOf_iff_suffix] at hm
  cases h with
  | inl hv => exact absurd (suffix_eq_of_length hm hv (by decide)) (by decide)
  | inr hv => exact absurd (suffix_eq_of_length hm hv (by decide)) (by decide)

/-- Witness for C10: an uppercase-extension file is not resolved even
when passed directly. -/
theorem case_variant_never_included_witness :
    "a.SQL" ∉ collect_sql_files ⟨["a.SQL"], []⟩ ["a.SQL"] :=
  case_variant_never_included _ _ _ (Or.inl (by decide))

end RunSql
